import Mathlib

/-!
Verification development for the obsidian-notes-to-anki plugin.

The definitions below are a shallow embedding of the core sync logic of the
plugin, translated from the TypeScript sources:
- the frontmatter value model and field projection (syncNoteToAnki, main file),
- the callout extractor (extractSummaryCallout) together with a model of the
  dynamically constructed regular expression,
- the tag filter and bulk sync loop (syncNotesByTags),
- the schema reconciliation (ensureAnkiNoteTypeModel, AnkiRequests),
- a state model for the external AnkiConnect store (decks, models, notes),
  which the code only reaches through ankiRequest round trips.

External collaborators (the AnkiConnect HTTP endpoint and the JavaScript
RegExp engine) are modelled by their documented interface semantics; each
such model carries a doc comment saying exactly what it covers.
-/

namespace NotesToAnki

/-- A JavaScript frontmatter value as consumed by the plugin: Obsidian hands
the code parsed YAML values, which the sync logic treats as either a scalar
(string, number, boolean) or an array of strings. Numbers are modelled as
integers (the plugin never does arithmetic on them; they are only tested for
truthiness and stringified). -/
inductive JsValue where
  | str (s : String)
  | num (n : Int)
  | bool (b : Bool)
  | arr (xs : List String)
deriving DecidableEq, Repr

/-- JavaScript truthiness of a frontmatter value, as used by the checks
`if (!guid)` and `if (frontmatter[propertyName])` in the source: the empty
string, the number 0 and false are falsy; every array (even empty) is truthy. -/
def JsValue.truthy : JsValue → Bool
  | .str s => !s.isEmpty
  | .num n => n != 0
  | .bool b => b
  | .arr _ => true

/-- JavaScript String(v) coercion for the modelled values: strings unchanged,
numbers in decimal, booleans as "true"/"false", arrays joined with ",". -/
def JsValue.toStringJs : JsValue → String
  | .str s => s
  | .num n => toString n
  | .bool b => if b then "true" else "false"
  | .arr xs => String.intercalate "," xs

/-- A frontmatter mapping, `frontmatter[key]` reads the first binding. -/
def lookupFm (fm : List (String × JsValue)) (k : String) : Option JsValue :=
  (fm.find? (fun p => p.1 == k)).map (fun p => p.2)

/-- The plugin settings fields used by the sync engine (interface
AnkiSyncSettings in the settings module, plus ankiGuidField which
ensureAnkiNoteTypeModel reads from the settings object). -/
structure AnkiSyncSettings where
  ankiDeckName : String
  noteTypeName : String
  obsidianGuidProperty : String
  propertyNames : List String
  callouts : List String
  tagsToInclude : List String
  tagsToExclude : List String
  ankiGuidField : String
deriving DecidableEq, Repr

/-- An Obsidian note as the sync logic sees it: raw text content, the parsed
frontmatter mapping, and the inline tag entries of the metadata cache (each
still carrying its leading `#`, exactly what `fileCache?.tags` yields). -/
structure NoteFile where
  content : String
  frontmatter : List (String × JsValue)
  inlineTags : List String
deriving DecidableEq, Repr

/-- `ankiFields[k] = v` on a JavaScript object modelled as an ordered
association list: an existing key keeps its position and gets the new value,
a new key is appended. -/
def setField (m : List (String × String)) (k v : String) : List (String × String) :=
  if m.any (fun p => p.1 == k) then
    m.map (fun p => if p.1 == k then (k, v) else p)
  else m ++ [(k, v)]

/-- Projection of one configured property into its field value, from the
property loop of syncNoteToAnki: a truthy array joins its elements with
`", "`, a truthy scalar is stringified, and an absent or falsy value yields
the empty string (the source guards the whole branch with the truthiness
test `if (frontmatter[propertyName])`). -/
def projectProperty (fm : List (String × JsValue)) (propertyName : String) : String :=
  match lookupFm fm propertyName with
  | none => ""
  | some v =>
    if v.truthy then
      match v with
      | .arr xs => String.intercalate ", " xs
      | _ => v.toStringJs
    else ""

/-- The ankiFields object built by syncNoteToAnki: first the identity value
under the Obsidian GUID property name, then one field per configured callout
label (`extractedCallout || ''`), then one field per configured property
name. The callout extraction is passed in as a function (the plugin variants
differ only in the rendering step applied to the extracted text). JavaScript
serialises the raw guid value when the object is sent; we store its string
coercion. -/
def buildAnkiFields (extractFn : String → String → Option String)
    (s : AnkiSyncSettings) (f : NoteFile) (guid : JsValue) :
    List (String × String) :=
  let m := setField [] s.obsidianGuidProperty guid.toStringJs
  let m := s.callouts.foldl (fun acc c => setField acc c ((extractFn f.content c).getD "")) m
  s.propertyNames.foldl (fun acc p => setField acc p (projectProperty f.frontmatter p)) m

/-- `frontmatter.tags || []` from the addNote call of syncNoteToAnki: the raw
frontmatter tags value when truthy, the empty array otherwise. -/
def rawTags (fm : List (String × JsValue)) : JsValue :=
  match lookupFm fm "tags" with
  | some v => if v.truthy then v else .arr []
  | none => .arr []

/-! ## Callout extractor

Model of `extractSummaryCallout(content, label)`:

```
const calloutRegex = new RegExp(`^> \\[!${label}\\](?:[^\r\n]*)?\r?\n((?:>.*\r?\n?)*)`, 'im');
const match = content.match(calloutRegex);
if (match && match[1]) {
    return match[1].split(/\r?\n/).map(line => line.replace(/^>\s?/, '')).join('\n').trim();
}
return null;
```

The RegExp engine is an external collaborator.  Two aspects of it are
modelled: (a) whether construction of the dynamic pattern throws a
SyntaxError (pattern well-formedness), and (b) the matching semantics of the
pattern family above when the interpolated label is literal text, i.e. free
of pattern metacharacters.  Theorems about matching restrict the label to
such literal labels; no theorem relies on the matching behaviour of a label
that both compiles and carries metacharacters. -/

/-- Line terminators recognised by the pattern (`\r`, `\n`). -/
def isNL (c : Char) : Bool := c = '\r' || c = '\n'

/-- The whitespace class `\s` of JavaScript, restricted to the characters
that can appear here (space, tab, vertical tab, form feed, carriage return,
newline, no-break space).  Used by `replace(/^>\s?/, ...)` and `trim()`. -/
def jsWhitespace (c : Char) : Bool :=
  c = ' ' || c = '\t' || c = '\n' || c = '\r' ||
  c = '\x0b' || c = '\x0c' || c = '\u00A0'

/-- Match the literal characters `ps` at the front of `cs`, ASCII
case-insensitively (the regex carries the `i` flag); returns the rest. -/
def matchCI : List Char → List Char → Option (List Char)
  | [], cs => some cs
  | _ :: _, [] => none
  | p :: ps, c :: cs => if p.toLower = c.toLower then matchCI ps cs else none

/-- Require character `c` next; returns the rest. -/
def expectChar (c : Char) : List Char → Option (List Char)
  | [] => none
  | x :: xs => if x = c then some xs else none

/-- Greedily take characters up to the next line terminator
(the `[^\r\n]*` and `.*` pieces of the pattern). -/
def spanNL : List Char → List Char × List Char
  | [] => ([], [])
  | c :: cs =>
    if isNL c then ([], c :: cs)
    else
      let p := spanNL cs
      (c :: p.1, p.2)

/-- Optionally consume one occurrence of character `c` (the `\r?` / `\n?`
pieces); returns the consumed characters and the rest. -/
def optChar (c : Char) : List Char → List Char × List Char
  | [] => ([], [])
  | x :: xs => if x = c then ([c], xs) else ([], x :: xs)

/-- One iteration of the capturing group `(?:>.*\r?\n?)`: a `>` followed by
the rest of the line and an optional line break.  Returns the consumed text
and the remaining input, or `none` when the next character is not `>`. -/
def quotedStep : List Char → Option (List Char × List Char)
  | [] => none
  | c :: cs =>
    if c = '>' then
      let p1 := spanNL cs
      let p2 := optChar '\r' p1.2
      let p3 := optChar '\n' p2.2
      some ('>' :: (p1.1 ++ p2.1 ++ p3.1), p3.2)
    else none

/-- Fuel-indexed iteration of `quotedStep`; each successful step strictly
shrinks the input, so any fuel above the input length is enough. -/
def captureQuotedF : Nat → List Char → List Char
  | 0, _ => []
  | fuel + 1, cs =>
    match quotedStep cs with
    | some p => p.1 ++ captureQuotedF fuel p.2
    | none => []

/-- The full capture of `((?:>.*\r?\n?)*)`: the greedy concatenation of
consecutive quoted lines. -/
def captureQuoted (cs : List Char) : List Char := captureQuotedF (cs.length + 1) cs

/-- Match the opener `^> \[!label\](?:[^\r\n]*)?\r?\n` at the current
position; returns the input following the opener line break. -/
def matchOpener (label : List Char) (cs : List Char) : Option (List Char) :=
  match matchCI ('>' :: ' ' :: '[' :: '!' :: label) cs with
  | none => none
  | some cs2 =>
    match expectChar ']' cs2 with
    | none => none
    | some cs3 =>
      let cs4 := (spanNL cs3).2
      let cs5 := (optChar '\r' cs4).2
      expectChar '\n' cs5

/-- Scan the content for the first position at the start of a line (index 0
or just after a line terminator, as multiline `^` does) where the opener
matches; on success return the captured continuation text of that first
match.  `String.match` without the `g` flag returns exactly the leftmost
match. -/
def scanForCallout (label : List Char) : List Char → Bool → Option (List Char)
  | [], atStart =>
    match (if atStart then matchOpener label [] else none) with
    | some r => some (captureQuoted r)
    | none => none
  | c :: rest, atStart =>
    match (if atStart then matchOpener label (c :: rest) else none) with
    | some r => some (captureQuoted r)
    | none => scanForCallout label rest (isNL c)

/-- Prepend a character to the first piece of a split (helper for
`splitCRLF`). -/
def consHead (c : Char) : List (List Char) → List (List Char)
  | [] => [[c]]
  | l :: ls => (c :: l) :: ls

/-- `split(/\r?\n/)`: split on every `\r\n` pair or lone `\n`; a lone `\r`
is ordinary text.  The empty input yields one empty piece, and a trailing
separator yields a trailing empty piece, as String.prototype.split does. -/
def splitCRLF : List Char → List (List Char)
  | [] => [[]]
  | c :: rest =>
    if c = '\n' then [] :: splitCRLF rest
    else if c = '\r' then
      match rest with
      | [] => [['\r']]
      | c2 :: rest2 =>
        if c2 = '\n' then [] :: splitCRLF rest2
        else consHead '\r' (splitCRLF (c2 :: rest2))
    else consHead c (splitCRLF rest)

/-- `line.replace(/^>\s?/, '')`: strip one leading `>` and at most one
whitespace character after it. -/
def stripQuote : List Char → List Char
  | [] => []
  | c :: rest =>
    if c = '>' then
      match rest with
      | [] => []
      | c2 :: rest2 => if jsWhitespace c2 then rest2 else c2 :: rest2
    else c :: rest

/-- `join('\n')`. -/
def joinNL (ls : List (List Char)) : List Char := List.intercalate ['\n'] ls

/-- `trim()`: drop whitespace from both ends. -/
def trimJs (cs : List Char) : List Char :=
  ((cs.dropWhile jsWhitespace).reverse.dropWhile jsWhitespace).reverse

/-- The post-processing applied to the captured group:
`split(/\r?\n/).map(line => line.replace(/^>\s?/, '')).join('\n').trim()`. -/
def processCapture (captured : List Char) : String :=
  String.mk (trimJs (joinNL ((splitCRLF captured).map stripQuote)))

/-- The fixed part of the pattern following the interpolated label. -/
def calloutSuffix : String := "\\](?:[^\r\n]*)?\r?\n((?:>.*\r?\n?)*)"

/-- The pattern string handed to `new RegExp`: in the template literal,
`\\[` produces a backslash escape and `\r`, `\n` produce literal control
characters, which the regex engine treats the same as their escaped forms. -/
def calloutPattern (label : String) : String :=
  "^> \\[!" ++ label ++ calloutSuffix

/-- Well-formedness of an ECMAScript pattern, restricted to the conditions
that decide whether `new RegExp` throws for the patterns built here:
backslash escapes must have a following character, character classes must be
terminated, and group parentheses outside a class must balance.  (A lone `]`
or an unmatched-free quantifier target is accepted, as the JavaScript engine
accepts them in these positions.) -/
def regexScan : List Char → Bool → Nat → Bool
  | [], inClass, depth => !inClass && depth == 0
  | c :: rest, inClass, depth =>
    if c = '\\' then
      match rest with
      | [] => false
      | _ :: rest2 => regexScan rest2 inClass depth
    else if c = '[' && !inClass then regexScan rest true depth
    else if c = ']' && inClass then regexScan rest false depth
    else if c = '(' && !inClass then regexScan rest inClass (depth + 1)
    else if c = ')' && !inClass then decide (depth ≠ 0) && regexScan rest inClass (depth - 1)
    else regexScan rest inClass depth

/-- Whether `new RegExp(p, 'im')` succeeds for pattern `p`. -/
def regexPatternOk (p : String) : Bool := regexScan p.toList false 0

/-- A character that the well-formedness scan treats as plain text. -/
def plainRegexChar (c : Char) : Bool :=
  !(c = '\\' || c = '[' || c = ']' || c = '(' || c = ')')

/-- A label is literal when it contains no pattern metacharacter and no line
terminator, so that its interpolation into the pattern denotes exactly its
own text. -/
def labelOk (label : String) : Bool :=
  label.toList.all (fun c =>
    plainRegexChar c &&
    !(c = '*' || c = '+' || c = '?' || c = '.' || c = '^' || c = '$' || c = '|' ||
      c = '\x7b' || c = '\x7d' || c = '\r' || c = '\n'))

/-- The observable result of `extractCallout` / `extractSummaryCallout`:
construction of the dynamic RegExp threw, or the function returned `null`,
or it returned a string. -/
inductive ExtractResult where
  | thrown
  | absent
  | value (s : String)
deriving DecidableEq, Repr

/-- The extractor: construct the pattern (throwing on an ill-formed one),
take the first match, and return `null` unless the captured group is a
non-empty string (`if (match && match[1])` — the empty capture is falsy). -/
def extractSummaryCallout (content label : String) : ExtractResult :=
  if regexPatternOk (calloutPattern label) then
    match scanForCallout label.toList content.toList true with
    | none => .absent
    | some captured =>
      if captured.isEmpty then .absent else .value (processCapture captured)
  else .thrown

/-! ## Remote store model

The AnkiConnect endpoint is an external collaborator reached only through
`ankiRequest(action, params)` round trips.  The state model below gives the
documented semantics of the actions the sync engine uses (findNotes on a
deck+field query, updateNoteFields, addNote, modelNames, modelFieldNames,
updateModelFields, createModel); every theorem also records the sequence of
requests a run issues. -/

/-- A remote record: numeric id, deck, note type, its field mapping, and the
tag list it was created with (kept as the raw JavaScript value the addNote
call carried). -/
structure AnkiNote where
  id : Nat
  deckName : String
  modelName : String
  fields : List (String × String)
  tags : JsValue
deriving DecidableEq, Repr

/-- The remote store: existing notes (with the id the next creation gets)
and the note type models, each an ordered field-name list. -/
structure AnkiState where
  notes : List AnkiNote
  nextId : Nat
  models : List (String × List String)
deriving DecidableEq, Repr

/-- One AnkiConnect request, with the parameters the sync engine supplies. -/
inductive AnkiCall where
  | findNotes (query : String)
  | updateNoteFields (id : Nat) (fields : List (String × String))
  | addNote (deckName modelName : String) (fields : List (String × String)) (tags : JsValue)
  | modelNames
  | modelFieldNames (modelName : String)
  | updateModelFields (modelName : String) (fields : List String)
  | createModel (modelName : String) (inOrderFields : List String) (isCloze : Bool)
deriving DecidableEq, Repr

/-- The query string syncNoteToAnki builds:
`deck:"<deck>" "<guid property>:<guid>"`. -/
def findNotesQuery (deck prop guid : String) : String :=
  "deck:\"" ++ deck ++ "\" \"" ++ prop ++ ":" ++ guid ++ "\""

/-- Semantics of `findNotes` for that query shape: the ids of the notes in
the deck whose field `prop` holds exactly `guid`. -/
def runFindNotes (st : AnkiState) (deck prop guid : String) : List Nat :=
  (st.notes.filter (fun n =>
    n.deckName == deck &&
    ((n.fields.find? (fun p => p.1 == prop)).map (fun p => p.2) == some guid))).map (fun n => n.id)

/-- Semantics of `updateNoteFields`: set each supplied field on the note
with the given id, leaving fields not in the mapping untouched. -/
def runUpdateNoteFields (st : AnkiState) (noteId : Nat) (fields : List (String × String)) :
    AnkiState :=
  { st with notes := st.notes.map (fun n =>
      if n.id == noteId then
        { n with fields := fields.foldl (fun acc kv => setField acc kv.1 kv.2) n.fields }
      else n) }

/-- Semantics of `addNote`: append a fresh record with the next id. -/
def runAddNote (st : AnkiState) (deck modelName : String)
    (fields : List (String × String)) (tags : JsValue) : AnkiState :=
  { st with
    notes := st.notes ++ [⟨st.nextId, deck, modelName, fields, tags⟩]
    nextId := st.nextId + 1 }

/-! ## Single-note sync (syncNoteToAnki) -/

/-- What one syncNoteToAnki call did: returned true (a note was added),
returned false (a note was updated), threw the ReferenceError raised when
the frontmatter has no truthy guid (rethrown by its catch block), or
swallowed another failure (its catch block logs every non-ReferenceError and
lets the function return undefined). -/
inductive SyncOutcome where
  | created
  | updated
  | identityError
  | swallowed
deriving DecidableEq, Repr

/-- Result of one syncNoteToAnki run: the outcome, the remote store
afterwards, and the requests issued (in order). -/
structure SyncStep where
  outcome : SyncOutcome
  state : AnkiState
  calls : List AnkiCall
deriving DecidableEq, Repr

/-- syncNoteToAnki: read the guid from the frontmatter and throw a
ReferenceError when it is missing or falsy, before any remote request;
otherwise build the field mapping, query for an existing note by guid, and
either update the first found note or add a new one with the raw frontmatter
tags.  `remoteOk = false` models a failed round trip on the first remote
request (the transport failure is caught, logged and swallowed). -/
def syncNoteToAnki (extractFn : String → String → Option String)
    (s : AnkiSyncSettings) (f : NoteFile) (st : AnkiState) (remoteOk : Bool) : SyncStep :=
  let guidOpt := lookupFm f.frontmatter s.obsidianGuidProperty
  match guidOpt with
  | none => ⟨.identityError, st, []⟩
  | some guid =>
    if !guid.truthy then ⟨.identityError, st, []⟩
    else
      let ankiFields := buildAnkiFields extractFn s f guid
      let q := findNotesQuery s.ankiDeckName s.obsidianGuidProperty guid.toStringJs
      if !remoteOk then ⟨.swallowed, st, [.findNotes q]⟩
      else
        match runFindNotes st s.ankiDeckName s.obsidianGuidProperty guid.toStringJs with
        | noteId :: _ =>
          ⟨.updated, runUpdateNoteFields st noteId ankiFields,
           [.findNotes q, .updateNoteFields noteId ankiFields]⟩
        | [] =>
          ⟨.created, runAddNote st s.ankiDeckName s.noteTypeName ankiFields (rawTags f.frontmatter),
           [.findNotes q, .addNote s.ankiDeckName s.noteTypeName ankiFields (rawTags f.frontmatter)]⟩

/-! ## Tag filter and bulk sync (syncNotesByTags) -/

/-- getTagsFromFile: the inline tag entries with the leading `#` removed and
lowercased, followed by the frontmatter tags lowercased (the source casts
the frontmatter value to string[]; a non-array value is out of scope of this
model and treated as no tags, like an absent one). -/
def getTagsFromFile (f : NoteFile) : List String :=
  f.inlineTags.map (fun t => (t.drop 1).toLower) ++
    (match lookupFm f.frontmatter "tags" with
     | some (.arr xs) => xs.map String.toLower
     | _ => [])

/-- The tag filter of syncNotesByTags, with its three guards in source
order: skip a tagless note when an include filter is configured; skip a note
carrying an excluded tag; keep a note when no include filter is configured
or the note carries an included tag. -/
def shouldSync (fileTags includeTags excludeTags : List String) : Bool :=
  if fileTags.isEmpty && !includeTags.isEmpty then false
  else if !excludeTags.isEmpty && fileTags.any (fun t => excludeTags.contains t) then false
  else if includeTags.isEmpty || fileTags.any (fun t => includeTags.contains t) then true
  else false

/-- The counters of the bulk loop, and the remote store afterwards. -/
structure BulkResult where
  createCounter : Nat
  updateCounter : Nat
  failCounter : Nat
  state : AnkiState
deriving DecidableEq, Repr

/-- syncNotesByTags: filter the files with the tag filter (the include and
exclude lists are the lowercased settings lists, per the plugin getters),
then run syncNoteToAnki on each survivor in order.  The loop body is
`await this.syncNoteToAnki(file) ? createCounter++ : updateCounter++`
inside try/catch: a true return bumps createCounter, a false return bumps
updateCounter, and the undefined returned after a swallowed failure is falsy
so it also bumps updateCounter; a thrown ReferenceError reaches the catch,
whose `!(error instanceof ReferenceError)` guard skips it, and no other
exception can escape syncNoteToAnki, so failCounter is never incremented.
Each file is paired with the `remoteOk` flag of its round trips. -/
def syncNotesByTags (extractFn : String → String → Option String)
    (s : AnkiSyncSettings) (files : List (NoteFile × Bool)) (st : AnkiState) : BulkResult :=
  let includeTags := s.tagsToInclude.map String.toLower
  let excludeTags := s.tagsToExclude.map String.toLower
  let filesToSync := files.filter (fun fb => shouldSync (getTagsFromFile fb.1) includeTags excludeTags)
  filesToSync.foldl
    (fun acc fb =>
      let step := syncNoteToAnki extractFn s fb.1 acc.state fb.2
      match step.outcome with
      | .created => { acc with createCounter := acc.createCounter + 1, state := step.state }
      | .updated => { acc with updateCounter := acc.updateCounter + 1, state := step.state }
      | .swallowed => { acc with updateCounter := acc.updateCounter + 1, state := step.state }
      | .identityError => acc)
    ⟨0, 0, 0, st⟩

/-! ## Schema reconciliation (AnkiRequests.ensureAnkiNoteTypeModel) -/

/-- areFieldArraysEqual: same length and pointwise equal entries. -/
def areFieldArraysEqual (arr1 arr2 : List String) : Bool :=
  arr1.length == arr2.length && (arr1.zip arr2).all (fun p => p.1 == p.2)

/-- The `action` component of the result object of ensureAnkiNoteTypeModel. -/
inductive EnsureAction where
  | created
  | updated
  | unchanged
  | error
deriving DecidableEq, Repr

/-- The result object `{success, action, message}`. -/
structure EnsureResult where
  success : Bool
  action : EnsureAction
  message : String
deriving DecidableEq, Repr

/-- Result of one ensureAnkiNoteTypeModel run: the result object, the remote
store afterwards, and the requests issued. -/
structure EnsureStep where
  result : EnsureResult
  state : AnkiState
  calls : List AnkiCall
deriving DecidableEq, Repr

/-- `trim()` on a string (JavaScript whitespace). -/
def trimStringJs (s : String) : String := String.mk (trimJs s.toList)

/-- `modelNames` semantics: the names of the existing models. -/
def modelNamesOf (st : AnkiState) : List String := st.models.map (fun p => p.1)

/-- `modelFieldNames` semantics: the ordered field list of the named model. -/
def modelFieldNamesOf (st : AnkiState) (modelName : String) : List String :=
  ((st.models.find? (fun p => p.1 == modelName)).map (fun p => p.2)).getD []

/-- `updateModelFields` semantics: replace the field list of the named model
(card templates, which the model does not track, are preserved by this
action). -/
def runUpdateModelFields (st : AnkiState) (modelName : String) (fields : List String) :
    AnkiState :=
  { st with models := st.models.map (fun p => if p.1 == modelName then (p.1, fields) else p) }

/-- `createModel` semantics: add a model with the given ordered fields. -/
def runCreateModel (st : AnkiState) (modelName : String) (fields : List String) : AnkiState :=
  { st with models := st.models ++ [(modelName, fields)] }

/-- ensureAnkiNoteTypeModel: the desired field list is the configured
callouts followed by the configured property names; after the four
validation guards, an existing model is compared field-by-field and updated
only when the lists differ, and a missing model is created with the desired
ordered fields (and a single card template whose front references the guid
field — the template is not part of the tracked state).  Remote round trips
are assumed to succeed; the catch branch for transport failures is outside
this model. -/
def ensureAnkiNoteTypeModel (s : AnkiSyncSettings) (st : AnkiState) : EnsureStep :=
  let modelName := s.noteTypeName
  let fieldNames := s.callouts ++ s.propertyNames
  let ankiGuidField := s.ankiGuidField
  if trimStringJs modelName == "" then
    ⟨⟨false, .error, "Error: Note Type Name is missing or invalid in settings."⟩, st, []⟩
  else if fieldNames.isEmpty || !(fieldNames.all (fun f => !(trimStringJs f == ""))) then
    ⟨⟨false, .error, "Error: Field Names are missing, empty, or invalid in settings."⟩, st, []⟩
  else if trimStringJs ankiGuidField == "" then
    ⟨⟨false, .error, "Error: Anki GUID Field setting is missing or invalid."⟩, st, []⟩
  else if !(fieldNames.contains ankiGuidField) then
    ⟨⟨false, .error,
      "Error: The Anki GUID Field (\"" ++ ankiGuidField ++
        "\") specified in settings must be one of the Field Names."⟩, st, []⟩
  else
    if (modelNamesOf st).contains modelName then
      let currentFields := modelFieldNamesOf st modelName
      if !(areFieldArraysEqual currentFields fieldNames) then
        ⟨⟨true, .updated, "Model \"" ++ modelName ++ "\" fields updated."⟩,
         runUpdateModelFields st modelName fieldNames,
         [.modelNames, .modelFieldNames modelName, .updateModelFields modelName fieldNames]⟩
      else
        ⟨⟨true, .unchanged, "Model \"" ++ modelName ++ "\" is up-to-date."⟩, st,
         [.modelNames, .modelFieldNames modelName]⟩
    else
      ⟨⟨true, .created, "Model \"" ++ modelName ++ "\" created."⟩,
       runCreateModel st modelName fieldNames,
       [.modelNames, .createModel modelName fieldNames false]⟩

/-- The conjunction of the four validation guards of
ensureAnkiNoteTypeModel: a non-blank model name, a non-empty desired field
list without blank entries, a non-blank guid field name, and a guid field
that occurs among the desired fields. -/
def settingsValid (s : AnkiSyncSettings) : Bool :=
  let fieldNames := s.callouts ++ s.propertyNames
  !(trimStringJs s.noteTypeName == "") &&
  !(fieldNames.isEmpty || !(fieldNames.all (fun f => !(trimStringJs f == "")))) &&
  !(trimStringJs s.ankiGuidField == "") &&
  fieldNames.contains s.ankiGuidField

/-! ## The tag filter as the specification words it -/

/-- The tag filter as the specification states it, rule by rule: exclude a
tagless note when the include list is non-empty; exclude when any note tag
is in the non-empty exclude list; include when no include list is
configured; otherwise include exactly when some note tag is in the include
list.  Kept separate from `shouldSync` so the two can be compared. -/
def specShouldSync (noteTags includeTags excludeTags : List String) : Bool :=
  if noteTags.isEmpty && !includeTags.isEmpty then false
  else if !excludeTags.isEmpty && noteTags.any (fun t => excludeTags.contains t) then false
  else if includeTags.isEmpty then true
  else noteTags.any (fun t => includeTags.contains t)

/-! ## Concrete instances used by the claim theorems -/

/-- Settings for the five-note bulk scenario: no include or exclude tags, so
every note passes the filter. -/
def c2cfg : AnkiSyncSettings := ⟨"D", "M", "guid", ["title"], [], [], [], "GUID"⟩

/-- The five notes of the scenario: two without an identity value, one whose
remote round trip fails, two that sync cleanly, each paired with the success
flag of its round trips. -/
def c2files : List (NoteFile × Bool) :=
  [(⟨"", [], []⟩, true),
   (⟨"", [("title", .str "no guid here")], []⟩, true),
   (⟨"", [("guid", .str "g3")], []⟩, false),
   (⟨"", [("guid", .str "g4")], []⟩, true),
   (⟨"", [("guid", .str "g5")], []⟩, true)]

/-- The configuration of the projection scenario of the claim: properties
title and authors, no callouts, identity key "citation key". -/
def c7cfg : AnkiSyncSettings :=
  ⟨"D", "M", "citation key", ["title", "authors"], [], [], [], "GUID"⟩

/-- The note of the projection scenario. -/
def c7note : NoteFile :=
  ⟨"", [("citation key", .str "abc123"), ("title", .str "Paper X"),
        ("authors", .arr ["A", "B"])], []⟩

/-- A configuration that ensureAnkiNoteTypeModel accepts although the
identity field is not first in the desired field list: the list it builds is
the callouts followed by the property names, and validation only requires
the identity field to occur somewhere in it. -/
def c5cfg : AnkiSyncSettings := ⟨"D", "m", "guid", ["title", "GUID"], ["summary"], [], [], "GUID"⟩

/-- A configuration accepted by schema reconciliation, used to witness the
idempotence claim. -/
def c4cfg : AnkiSyncSettings := ⟨"D", "typeA", "guid", ["GUID", "title"], ["summary"], [], [], "GUID"⟩

/-- The configuration of the create-then-update scenario. -/
def c1cfg : AnkiSyncSettings :=
  ⟨"D", "M", "citation key", ["title", "authors"], [], [], [], "GUID"⟩

/-- The note of the create-then-update scenario, with identity value
"abc123". -/
def c1note : NoteFile :=
  ⟨"", [("citation key", .str "abc123"), ("title", .str "Paper X"),
        ("authors", .arr ["A", "B"])], []⟩

/-! ## Helper lemmas -/

theorem spanNL_len (cs : List Char) : (spanNL cs).2.length ≤ cs.length := by
  induction cs with
  | nil => simp [spanNL]
  | cons c cs ih =>
    simp only [spanNL]
    split
    · simp
    · simpa using Nat.le_succ_of_le ih

theorem optChar_len (c : Char) (cs : List Char) : (optChar c cs).2.length ≤ cs.length := by
  cases cs with
  | nil => simp [optChar]
  | cons x xs =>
    simp only [optChar]
    split <;> simp

theorem quotedStep_len {cs chunk rest : List Char}
    (h : quotedStep cs = some (chunk, rest)) : rest.length < cs.length := by
  cases cs with
  | nil => simp [quotedStep] at h
  | cons c cs =>
    simp only [quotedStep] at h
    split at h
    · rw [Option.some.injEq, Prod.mk.injEq] at h
      have hr := h.2
      have h1 := optChar_len '\n' (optChar '\r' (spanNL cs).2).2
      have h2 := optChar_len '\r' (spanNL cs).2
      have h3 := spanNL_len cs
      rw [hr] at h1
      simp only [List.length_cons]
      omega
    · exact absurd h (by simp)

theorem captureQuotedF_fuel : ∀ (fuel fuel' : Nat) (cs : List Char),
    cs.length < fuel → cs.length < fuel' →
    captureQuotedF fuel cs = captureQuotedF fuel' cs
  | 0, _, _, h, _ => by omega
  | _ + 1, 0, _, _, h' => by omega
  | fuel + 1, fuel' + 1, cs, h, h' => by
    simp only [captureQuotedF]
    cases hq : quotedStep cs with
    | none => rfl
    | some p =>
      obtain ⟨chunk, rest⟩ := p
      have hlen := @quotedStep_len cs chunk rest (by rw [hq])
      show chunk ++ captureQuotedF fuel rest = chunk ++ captureQuotedF fuel' rest
      rw [captureQuotedF_fuel fuel fuel' rest (by omega) (by omega)]

/-- Unfolding rule for `captureQuoted`. -/
theorem captureQuoted_step (cs : List Char) :
    captureQuoted cs =
      match quotedStep cs with
      | some p => p.1 ++ captureQuoted p.2
      | none => [] := by
  unfold captureQuoted
  simp only [captureQuotedF]
  cases hq : quotedStep cs with
  | none => rfl
  | some p =>
    obtain ⟨chunk, rest⟩ := p
    have hlen := @quotedStep_len cs chunk rest (by rw [hq])
    show chunk ++ captureQuotedF cs.length rest = chunk ++ captureQuotedF (rest.length + 1) rest
    rw [captureQuotedF_fuel cs.length (rest.length + 1) rest (by omega) (by omega)]

/-- Unfolding rule for `regexScan` on a cons. -/
theorem regexScan_cons (c : Char) (rest : List Char) (inClass : Bool) (depth : Nat) :
    regexScan (c :: rest) inClass depth =
      (if c = '\\' then
        match rest with
        | [] => false
        | _ :: rest2 => regexScan rest2 inClass depth
      else if c = '[' && !inClass then regexScan rest true depth
      else if c = ']' && inClass then regexScan rest false depth
      else if c = '(' && !inClass then regexScan rest inClass (depth + 1)
      else if c = ')' && !inClass then decide (depth ≠ 0) && regexScan rest inClass (depth - 1)
      else regexScan rest inClass depth) := by
  rw [regexScan.eq_def]

/-- Plain characters do not change the state of the well-formedness scan. -/
theorem regexScan_plain_append (l : List Char) :
    ∀ (r : List Char) (inClass : Bool) (depth : Nat),
      l.all plainRegexChar = true →
      regexScan (l ++ r) inClass depth = regexScan r inClass depth := by
  induction l with
  | nil => intro r inClass depth _; rfl
  | cons c t ih =>
    intro r inClass depth hall
    simp only [List.all_cons, Bool.and_eq_true] at hall
    obtain ⟨hc, ht⟩ := hall
    have h5 : ¬(c = '\\') ∧ ¬(c = '[') ∧ ¬(c = ']') ∧ ¬(c = '(') ∧ ¬(c = ')') := by
      simp only [plainRegexChar, Bool.not_eq_true', Bool.or_eq_false_iff,
        decide_eq_false_iff_not] at hc
      exact ⟨hc.1.1.1.1, hc.1.1.1.2, hc.1.1.2, hc.1.2, hc.2⟩
    rw [List.cons_append, regexScan_cons]
    rw [if_neg h5.1,
        if_neg (by simp [h5.2.1]), if_neg (by simp [h5.2.2.1]),
        if_neg (by simp [h5.2.2.2.1]), if_neg (by simp [h5.2.2.2.2])]
    exact ih r inClass depth ht

/-- A literal label always yields a well-formed pattern: the fixed prefix
and suffix of the pattern balance on their own and the label contributes
only plain characters. -/
theorem labelOk_patternOk (label : String) (hlab : labelOk label = true) :
    regexPatternOk (calloutPattern label) = true := by
  have hsplit : (calloutPattern label).toList =
      '^' :: '>' :: ' ' :: '\\' :: '[' :: '!' :: (label.toList ++ calloutSuffix.toList) := by
    show ("^> \\[!" ++ label ++ calloutSuffix).data = _
    rw [String.data_append, String.data_append]
    rfl
  have hplainLabel : label.toList.all plainRegexChar = true := by
    simp only [labelOk, List.all_eq_true, Bool.and_eq_true] at hlab
    simp only [List.all_eq_true]
    exact fun x hx => (hlab x hx).1
  rw [regexPatternOk, hsplit]
  have hpre : ∀ t : List Char,
      regexScan ('^' :: '>' :: ' ' :: '\\' :: '[' :: '!' :: t) false 0 =
        regexScan t false 0 := by
    intro t
    repeat (rw [regexScan_cons]; simp +decide)
  rw [hpre, regexScan_plain_append label.toList calloutSuffix.toList false 0 hplainLabel]
  decide

/-! ## Claim C3: the tag filter agrees with the ordered rules of the
specification -/

/-- Claim C3: for every noteTags, includeTags and excludeTags the tag filter
shouldSync returns exactly the result of the ordered rules of the
specification (exclude a tagless note under a non-empty include filter;
exclude on an excluded tag; include when no include filter is configured;
otherwise include exactly on an included tag), and in particular
shouldSync [] [] [] = true, shouldSync [] [x] [] = false,
shouldSync [a] [] [a] = false, shouldSync [a, b] [b] [] = true, and a note
with no tags is included whenever the include list is empty, even when the
exclude list is non-empty. -/
theorem shouldSync_matches_spec :
    (∀ noteTags includeTags excludeTags : List String,
      shouldSync noteTags includeTags excludeTags =
        specShouldSync noteTags includeTags excludeTags) ∧
    shouldSync [] [] [] = true ∧
    shouldSync [] ["x"] [] = false ∧
    shouldSync ["a"] [] ["a"] = false ∧
    shouldSync ["a", "b"] ["b"] [] = true ∧
    (∀ excludeTags : List String, shouldSync [] [] excludeTags = true) := by
  refine ⟨?_, by decide, by decide, by decide, by decide, ?_⟩
  · intro noteTags includeTags excludeTags
    simp only [shouldSync, specShouldSync]
    by_cases h1 : (noteTags.isEmpty && !includeTags.isEmpty) = true
    · rw [if_pos h1, if_pos h1]
    · rw [if_neg h1, if_neg h1]
      by_cases h2 : (!excludeTags.isEmpty && noteTags.any fun t => excludeTags.contains t) = true
      · rw [if_pos h2, if_pos h2]
      · rw [if_neg h2, if_neg h2]
        by_cases h3 : includeTags.isEmpty = true
        · rw [if_pos (by simp [h3]), if_pos h3]
        · rw [if_neg h3]
          rw [Bool.not_eq_true] at h3
          simp only [h3, Bool.false_or]
          cases noteTags.any fun t => includeTags.contains t
          · rw [if_neg (by simp)]
          · rw [if_pos rfl]
  · intro excludeTags
    simp [shouldSync]

/-! ## Claim C6: a note without an identity value fails before any remote
call -/

/-- Claim C6: for every note whose frontmatter has no value under the
configured identity property, syncNoteToAnki throws the ReferenceError (the
outcome the model keeps distinct from every other result), issues zero
remote requests and leaves the remote store untouched. -/
theorem syncOne_no_identity_no_calls
    (extractFn : String → String → Option String) (s : AnkiSyncSettings)
    (f : NoteFile) (st : AnkiState) (remoteOk : Bool)
    (h : lookupFm f.frontmatter s.obsidianGuidProperty = none) :
    syncNoteToAnki extractFn s f st remoteOk = ⟨.identityError, st, []⟩ := by
  simp only [syncNoteToAnki, h]

/-- Witness for claim C6 at a concrete note with no identity value. -/
theorem syncOne_no_identity_no_calls_witness :
    lookupFm [("title", NotesToAnki.JsValue.str "T")] "guid" = none ∧
    syncNoteToAnki (fun _ _ => none) ⟨"D", "M", "guid", ["title"], [], [], [], "GUID"⟩
        ⟨"", [("title", NotesToAnki.JsValue.str "T")], []⟩ ⟨[], 0, []⟩ true =
      ⟨.identityError, ⟨[], 0, []⟩, []⟩ :=
  ⟨by decide,
   syncOne_no_identity_no_calls (fun _ _ => none)
     ⟨"D", "M", "guid", ["title"], [], [], [], "GUID"⟩
     ⟨"", [("title", NotesToAnki.JsValue.str "T")], []⟩ ⟨[], 0, []⟩ true (by decide)⟩

/-! ## Claim C2: failure counting in the bulk loop

The claimed counting is the one the bulk loop plainly intends (its catch
carries a dead `failCounter++` branch, and syncNoteToAnki documents itself as
returning true or false), but the inner catch of syncNoteToAnki swallows
every non-ReferenceError, so a note whose remote round trip fails makes
syncNoteToAnki return undefined; the loop then evaluates
`undefined ? createCounter++ : updateCounter++` and counts the note as
updated, and failCounter can never be incremented. -/

/-- Claim C2 is a code bug: on the scenario of the claim (five filtered
notes: two lacking identity, one failing its remote call, two succeeding)
the code reports zero failures — the identity-less notes are skipped as the
claim says, but the remote-failure note is counted as updated instead of
failed, because syncNoteToAnki swallows the error and returns undefined,
which the loop treats as the false branch of its ternary.  The claimed
result (failedCount = 1, the failing note in neither success counter) does
not hold: the counters end as created = 2, updated = 1, failed = 0. -/
theorem syncByTags_failCounter_dead :
    syncNotesByTags (fun _ _ => none) c2cfg c2files ⟨[], 0, []⟩ =
      ⟨2, 1, 0, ⟨[⟨0, "D", "M", [("guid", "g4"), ("title", "")], .arr []⟩,
                  ⟨1, "D", "M", [("guid", "g5"), ("title", "")], .arr []⟩], 2, []⟩⟩ ∧
    (syncNoteToAnki (fun _ _ => none) c2cfg ⟨"", [("guid", .str "g3")], []⟩ ⟨[], 0, []⟩
        false).outcome = .swallowed := by
  constructor <;> decide

/-! ## Claim C7: field projection of configured properties -/

/-- Counterexample to claim C7: the projection guards on JavaScript
truthiness, not on presence, so a property present with the falsy scalar 0
projects to the empty string, not to its stringification "0" as the claim
demands for every present scalar. -/
theorem projectProperty_counterexample :
    lookupFm [("year", NotesToAnki.JsValue.num 0)] "year" = some (.num 0) ∧
    projectProperty [("year", NotesToAnki.JsValue.num 0)] "year" = "" ∧
    JsValue.toStringJs (.num 0) = "0" ∧
    projectProperty [("year", NotesToAnki.JsValue.num 0)] "year" ≠
      JsValue.toStringJs (.num 0) := by
  refine ⟨by decide, by decide, by decide, by decide⟩

/-- Claim C7 as amended: a configured property projects to the elements
joined with ", " when its value is a sequence, to the stringified value when
it is present with a truthy scalar, and to the empty string when it is
absent or present with a falsy scalar (such as 0 or false); and the
projection scenario of the claim holds as stated. -/
theorem projectProperty_amended :
    (∀ fm p, lookupFm fm p = none → projectProperty fm p = "") ∧
    (∀ fm p v, lookupFm fm p = some v → v.truthy = false → projectProperty fm p = "") ∧
    (∀ fm p xs, lookupFm fm p = some (.arr xs) →
      projectProperty fm p = String.intercalate ", " xs) ∧
    (∀ fm p v, lookupFm fm p = some v → v.truthy = true → (∀ xs, v ≠ .arr xs) →
      projectProperty fm p = v.toStringJs) ∧
    buildAnkiFields (fun _ _ => none) c7cfg c7note (.str "abc123") =
      [("citation key", "abc123"), ("title", "Paper X"), ("authors", "A, B")] := by
  refine ⟨?_, ?_, ?_, ?_, by decide⟩
  · intro fm p h
    simp [projectProperty, h]
  · intro fm p v h ht
    simp [projectProperty, h, ht]
  · intro fm p xs h
    simp [projectProperty, h, JsValue.truthy]
  · intro fm p v h ht hxs
    cases v with
    | arr xs => exact absurd rfl (hxs xs)
    | str s => simp [projectProperty, h, ht]
    | num n => simp [projectProperty, h, ht]
    | bool b => simp [projectProperty, h, ht]

/-- Witness for the amended claim C7 at concrete inputs: a present sequence
joins with ", ", a present truthy scalar stringifies, an absent property and
a present falsy scalar both give the empty string. -/
theorem projectProperty_amended_witness :
    projectProperty [("authors", NotesToAnki.JsValue.arr ["A", "B"])] "authors" = "A, B" ∧
    projectProperty [("title", NotesToAnki.JsValue.str "Paper X")] "title" = "Paper X" ∧
    projectProperty [] "missing" = "" ∧
    projectProperty [("flag", NotesToAnki.JsValue.bool false)] "flag" = "" :=
  ⟨(projectProperty_amended.2.2.1 [("authors", .arr ["A", "B"])] "authors" ["A", "B"]
      (by decide)).trans (by decide),
   (projectProperty_amended.2.2.2.1 [("title", .str "Paper X")] "title" (.str "Paper X")
      (by decide) (by decide) (fun xs h => by cases h)).trans (by decide),
   projectProperty_amended.1 [] "missing" (by decide),
   projectProperty_amended.2.1 [("flag", .bool false)] "flag" (.bool false)
     (by decide) (by decide)⟩

/-! ## Claim C5: position of the identity field in the desired field list -/

/-- Counterexample to claim C5: with callouts ["summary"] and property names
["title", "GUID"], validation passes and the creation request carries the
desired field list ["summary", "title", "GUID"], whose first element is not
the identity field "GUID". -/
theorem ensure_identity_first_counterexample :
    settingsValid c5cfg = true ∧
    (ensureAnkiNoteTypeModel c5cfg ⟨[], 0, []⟩).calls =
      [AnkiCall.modelNames, AnkiCall.createModel "m" ["summary", "title", "GUID"] false] ∧
    (["summary", "title", "GUID"] : List String).head? ≠ some c5cfg.ankiGuidField := by
  refine ⟨by decide, by decide, by decide⟩

/-- Under valid settings, ensureAnkiNoteTypeModel reduces to its
compare-and-reconcile tail. -/
theorem ensure_of_valid (s : AnkiSyncSettings) (st : AnkiState) (h : settingsValid s = true) :
    ensureAnkiNoteTypeModel s st =
      if (modelNamesOf st).contains s.noteTypeName then
        if !(areFieldArraysEqual (modelFieldNamesOf st s.noteTypeName)
              (s.callouts ++ s.propertyNames)) then
          ⟨⟨true, .updated, "Model \"" ++ s.noteTypeName ++ "\" fields updated."⟩,
           runUpdateModelFields st s.noteTypeName (s.callouts ++ s.propertyNames),
           [.modelNames, .modelFieldNames s.noteTypeName,
            .updateModelFields s.noteTypeName (s.callouts ++ s.propertyNames)]⟩
        else
          ⟨⟨true, .unchanged, "Model \"" ++ s.noteTypeName ++ "\" is up-to-date."⟩, st,
           [.modelNames, .modelFieldNames s.noteTypeName]⟩
      else
        ⟨⟨true, .created, "Model \"" ++ s.noteTypeName ++ "\" created."⟩,
         runCreateModel st s.noteTypeName (s.callouts ++ s.propertyNames),
         [.modelNames, .createModel s.noteTypeName (s.callouts ++ s.propertyNames) false]⟩ := by
  simp only [settingsValid, Bool.and_eq_true] at h
  obtain ⟨⟨⟨h1, h2⟩, h3⟩, h4⟩ := h
  rw [ensureAnkiNoteTypeModel]
  rw [if_neg (by intro hc; rw [hc] at h1; simp at h1),
      if_neg (by intro hc; rw [hc] at h2; simp at h2),
      if_neg (by intro hc; rw [hc] at h3; simp at h3),
      if_neg (by intro hc; rw [h4] at hc; simp at hc)]

/-- Claim C5 as amended: for every configuration accepted by schema
reconciliation, the desired field list it builds and passes to the remote
store (for creation or for a field update) is the configured callouts
followed by the configured property names, and it contains the identity
field somewhere — not necessarily as its first element. -/
theorem ensure_desired_fields_amended (s : AnkiSyncSettings) (st : AnkiState)
    (h : settingsValid s = true) :
    (s.callouts ++ s.propertyNames).contains s.ankiGuidField = true ∧
    (∀ m fs b, AnkiCall.createModel m fs b ∈ (ensureAnkiNoteTypeModel s st).calls →
      fs = s.callouts ++ s.propertyNames) ∧
    (∀ m fs, AnkiCall.updateModelFields m fs ∈ (ensureAnkiNoteTypeModel s st).calls →
      fs = s.callouts ++ s.propertyNames) := by
  have he := ensure_of_valid s st h
  have h4 : (s.callouts ++ s.propertyNames).contains s.ankiGuidField = true := by
    simp only [settingsValid, Bool.and_eq_true] at h
    exact h.2
  refine ⟨h4, ?_, ?_⟩
  · intro m fs b hmem
    rw [he] at hmem
    split at hmem
    · split at hmem <;> simp at hmem
    · simp only [List.mem_cons, List.mem_singleton] at hmem
      rcases hmem with hmem | hmem | hmem
      · cases hmem
      · cases hmem
        rfl
      · cases hmem
  · intro m fs hmem
    rw [he] at hmem
    split at hmem
    · split at hmem
      · simp only [List.mem_cons, List.mem_singleton] at hmem
        rcases hmem with hmem | hmem | hmem | hmem
        · cases hmem
        · cases hmem
        · cases hmem
          rfl
        · cases hmem
      · simp at hmem
    · simp at hmem

/-- Witness for the amended claim C5: the accepted configuration c5cfg puts
the identity field "GUID" somewhere in the desired list, and the creation
request on an empty store carries exactly callouts ++ propertyNames. -/
theorem ensure_desired_fields_amended_witness :
    settingsValid c5cfg = true ∧
    (c5cfg.callouts ++ c5cfg.propertyNames).contains c5cfg.ankiGuidField = true ∧
    (["summary", "title", "GUID"] : List String) = c5cfg.callouts ++ c5cfg.propertyNames :=
  ⟨by decide, (ensure_desired_fields_amended c5cfg ⟨[], 0, []⟩ (by decide)).1,
   (ensure_desired_fields_amended c5cfg ⟨[], 0, []⟩ (by decide)).2.1 "m"
     ["summary", "title", "GUID"] false (by decide)⟩

/-! ## Claim C10: totality of the callout extractor -/

/-- Counterexample to claim C10: the extractor is not total over its public
inputs — for the label "(", which is interpolated verbatim into the dynamic
pattern, the constructed pattern has an unbalanced group and RegExp
construction throws before any matching happens. -/
theorem extract_total_counterexample :
    extractSummaryCallout "> [!(]\n> x\n" "(" = .thrown ∧
    regexPatternOk (calloutPattern "(") = false ∧
    (∀ s : String, ExtractResult.thrown ≠ .value s) ∧
    ExtractResult.thrown ≠ .absent := by
  refine ⟨by decide, by decide, ?_, by decide⟩
  intro s h
  cases h

/-- Claim C10 as amended: for every content and label, the extractor throws
exactly when the pattern built from the label is not a well-formed regular
expression; every label free of pattern metacharacters (such as "summary")
yields a well-formed pattern and hence a string-or-absent result, while a
label such as "(" makes construction throw. -/
theorem extract_total_amended :
    (∀ content label : String,
      extractSummaryCallout content label = .thrown ↔
        regexPatternOk (calloutPattern label) = false) ∧
    (∀ label : String, labelOk label = true → regexPatternOk (calloutPattern label) = true) ∧
    regexPatternOk (calloutPattern "summary") = true ∧
    regexPatternOk (calloutPattern "(") = false := by
  refine ⟨?_, ?_, by decide, by decide⟩
  · intro content label
    simp only [extractSummaryCallout]
    by_cases hok : regexPatternOk (calloutPattern label) = true
    · rw [if_pos hok]
      constructor
      · intro h
        split at h
        · cases h
        · split at h <;> cases h
      · intro h
        rw [hok] at h
        cases h
    · rw [if_neg hok]
      simp only [Bool.not_eq_true] at hok
      exact ⟨fun _ => hok, fun _ => rfl⟩
  · exact fun label hlab => labelOk_patternOk label hlab

/-! ## Claim C4: schema reconciliation is idempotent -/

theorem areFieldArraysEqual_iff : ∀ a b : List String, areFieldArraysEqual a b = true ↔ a = b
  | [], [] => by simp [areFieldArraysEqual]
  | [], _ :: _ => by simp [areFieldArraysEqual]
  | _ :: _, [] => by simp [areFieldArraysEqual]
  | x :: xs, y :: ys => by
    have ih := areFieldArraysEqual_iff xs ys
    simp only [areFieldArraysEqual, List.zip_cons_cons, List.all_cons, List.length_cons,
      Bool.and_eq_true, beq_iff_eq, Nat.add_right_cancel_iff, List.cons.injEq] at ih ⊢
    constructor
    · rintro ⟨hlen, hxy, hall⟩
      exact ⟨hxy, ih.mp ⟨hlen, hall⟩⟩
    · rintro ⟨hxy, htail⟩
      have := ih.mpr htail
      exact ⟨this.1, hxy, this.2⟩

theorem modelNamesOf_update (st : AnkiState) (m : String) (fs : List String) :
    modelNamesOf (runUpdateModelFields st m fs) = modelNamesOf st := by
  simp only [modelNamesOf, runUpdateModelFields, List.map_map]
  apply List.map_congr_left
  intro p _
  by_cases hp : p.1 = m <;> simp [hp]

theorem find?_update_models (l : List (String × List String)) (m : String) (fs : List String)
    (h : (l.map (fun p => p.1)).contains m = true) :
    ((l.map (fun p => if p.1 == m then (p.1, fs) else p)).find?
        (fun p => p.1 == m)).map (fun p => p.2) = some fs := by
  induction l with
  | nil => simp at h
  | cons a t ih =>
    by_cases ha : a.1 = m
    · rw [List.map_cons, if_pos (by simp [ha]), List.find?_cons_of_pos _ (by simp [ha])]
      rfl
    · rw [List.map_cons, if_neg (by simp [ha]), List.find?_cons_of_neg _ (by simp [ha])]
      apply ih
      rw [List.map_cons, List.contains_cons] at h
      have hm : (m == a.1) = false := by
        rw [beq_eq_false_iff_ne]
        exact fun hEq => ha hEq.symm
      rw [hm, Bool.false_or] at h
      exact h

theorem modelFieldNamesOf_update (st : AnkiState) (m : String) (fs : List String)
    (h : (modelNamesOf st).contains m = true) :
    modelFieldNamesOf (runUpdateModelFields st m fs) m = fs := by
  simp only [modelFieldNamesOf, runUpdateModelFields]
  rw [find?_update_models st.models m fs h]
  rfl

theorem modelNamesOf_create (st : AnkiState) (m : String) (fs : List String) :
    modelNamesOf (runCreateModel st m fs) = modelNamesOf st ++ [m] := by
  simp [modelNamesOf, runCreateModel]

theorem modelFieldNamesOf_create (st : AnkiState) (m : String) (fs : List String)
    (h : (modelNamesOf st).contains m = false) :
    modelFieldNamesOf (runCreateModel st m fs) m = fs := by
  simp only [modelFieldNamesOf, runCreateModel]
  have hnone : st.models.find? (fun p => p.1 == m) = none := by
    rw [List.find?_eq_none]
    intro p hp hbeq
    have hmem : p.1 ∈ st.models.map (fun q => q.1) := List.mem_map_of_mem _ hp
    rw [beq_iff_eq] at hbeq
    rw [hbeq] at hmem
    have hcont : (modelNamesOf st).contains m = true :=
      List.elem_eq_true_of_mem (by simpa [modelNamesOf] using hmem)
    rw [hcont] at h
    cases h
  rw [List.find?_append, hnone]
  simp

/-- Claim C4: for any starting remote state and a configuration passing
validation, a first ensureAnkiNoteTypeModel reports created, updated or
unchanged; an immediately following second call with the same configuration
reports unchanged; and the first call reports unchanged exactly when the
model already exists with a field list element-wise identical to the desired
list. -/
theorem ensureModel_idempotent (s : AnkiSyncSettings) (st : AnkiState)
    (h : settingsValid s = true) :
    ((ensureAnkiNoteTypeModel s st).result.action = .created ∨
      (ensureAnkiNoteTypeModel s st).result.action = .updated ∨
      (ensureAnkiNoteTypeModel s st).result.action = .unchanged) ∧
    (ensureAnkiNoteTypeModel s (ensureAnkiNoteTypeModel s st).state).result.action =
      .unchanged ∧
    ((ensureAnkiNoteTypeModel s st).result.action = .unchanged ↔
      ((modelNamesOf st).contains s.noteTypeName = true ∧
        modelFieldNamesOf st s.noteTypeName = s.callouts ++ s.propertyNames)) := by
  have he := ensure_of_valid s st h
  by_cases hex : (modelNamesOf st).contains s.noteTypeName = true
  · by_cases heq : areFieldArraysEqual (modelFieldNamesOf st s.noteTypeName)
        (s.callouts ++ s.propertyNames) = true
    · rw [he, if_pos hex, if_neg (by rw [heq]; simp)]
      refine ⟨Or.inr (Or.inr rfl), ?_, ?_⟩
      · rw [ensure_of_valid s st h, if_pos hex, if_neg (by rw [heq]; simp)]
      · exact ⟨fun _ => ⟨hex, (areFieldArraysEqual_iff _ _).mp heq⟩, fun _ => rfl⟩
    · have heq' : areFieldArraysEqual (modelFieldNamesOf st s.noteTypeName)
          (s.callouts ++ s.propertyNames) = false := by
        rcases Bool.eq_false_or_eq_true (areFieldArraysEqual (modelFieldNamesOf st s.noteTypeName)
          (s.callouts ++ s.propertyNames)) with ht | hf
        · exact absurd ht heq
        · exact hf
      rw [he, if_pos hex, if_pos (by rw [heq']; simp)]
      refine ⟨Or.inr (Or.inl rfl), ?_, ?_⟩
      · rw [ensure_of_valid s _ h]
        rw [if_pos (by rw [modelNamesOf_update]; exact hex)]
        rw [modelFieldNamesOf_update st s.noteTypeName (s.callouts ++ s.propertyNames) hex]
        rw [if_neg (by rw [(areFieldArraysEqual_iff _ _).mpr rfl]; simp)]
      · constructor
        · intro habs
          cases habs
        · rintro ⟨-, hf⟩
          exact absurd ((areFieldArraysEqual_iff _ _).mpr hf) heq
  · have hex' : (modelNamesOf st).contains s.noteTypeName = false := by
      rcases Bool.eq_false_or_eq_true ((modelNamesOf st).contains s.noteTypeName) with ht | hf
      · exact absurd ht hex
      · exact hf
    rw [he, if_neg hex]
    refine ⟨Or.inl rfl, ?_, ?_⟩
    · rw [ensure_of_valid s _ h]
      rw [if_pos (by rw [modelNamesOf_create]; simp)]
      rw [modelFieldNamesOf_create st s.noteTypeName (s.callouts ++ s.propertyNames) hex']
      rw [if_neg (by rw [(areFieldArraysEqual_iff _ _).mpr rfl]; simp)]
    · constructor
      · intro habs
        cases habs
      · rintro ⟨hc, -⟩
        exact absurd hc hex

/-- Witness for claim C4 at a concrete accepted configuration and the empty
remote state: the first call creates, the second reports unchanged, and the
first call is not unchanged since the model did not exist. -/
theorem ensureModel_idempotent_witness :
    settingsValid c4cfg = true ∧
    (((ensureAnkiNoteTypeModel c4cfg ⟨[], 0, []⟩).result.action = .created ∨
      (ensureAnkiNoteTypeModel c4cfg ⟨[], 0, []⟩).result.action = .updated ∨
      (ensureAnkiNoteTypeModel c4cfg ⟨[], 0, []⟩).result.action = .unchanged) ∧
    (ensureAnkiNoteTypeModel c4cfg
        (ensureAnkiNoteTypeModel c4cfg ⟨[], 0, []⟩).state).result.action = .unchanged ∧
    ((ensureAnkiNoteTypeModel c4cfg ⟨[], 0, []⟩).result.action = .unchanged ↔
      ((modelNamesOf ⟨[], 0, []⟩).contains c4cfg.noteTypeName = true ∧
        modelFieldNamesOf ⟨[], 0, []⟩ c4cfg.noteTypeName =
          c4cfg.callouts ++ c4cfg.propertyNames))) :=
  ⟨by decide, ensureModel_idempotent c4cfg ⟨[], 0, []⟩ (by decide)⟩

/-! ## Claim C1: create on a missing record, update on an existing one -/

theorem find?_map_setField (m : List (String × String)) (k v p : String) (hkp : k ≠ p) :
    (m.map (fun q => if q.1 == k then (k, v) else q)).find? (fun q => q.1 == p) =
      m.find? (fun q => q.1 == p) := by
  induction m with
  | nil => rfl
  | cons a t ih =>
    by_cases ha : a.1 = k
    · rw [List.map_cons, if_pos (by simp [ha])]
      rw [List.find?_cons_of_neg _ (by simp [hkp]),
          List.find?_cons_of_neg _ (by simp [ha]; exact hkp)]
      exact ih
    · rw [List.map_cons, if_neg (by simp [ha])]
      by_cases hap : a.1 = p
      · rw [List.find?_cons_of_pos _ (by simp [hap]), List.find?_cons_of_pos _ (by simp [hap])]
      · rw [List.find?_cons_of_neg _ (by simp [hap]), List.find?_cons_of_neg _ (by simp [hap])]
        exact ih

theorem setField_find?_ne (m : List (String × String)) (k v p : String) (hkp : k ≠ p) :
    (setField m k v).find? (fun q => q.1 == p) = m.find? (fun q => q.1 == p) := by
  unfold setField
  split
  · exact find?_map_setField m k v p hkp
  · rw [List.find?_append]
    cases hm : m.find? (fun q => q.1 == p) with
    | some q => rfl
    | none => simp [hkp]

theorem foldl_setField_ne (val : String → String) (l : List String) (p : String)
    (hl : ∀ c ∈ l, c ≠ p) :
    ∀ m : List (String × String),
      (l.foldl (fun acc c => setField acc c (val c)) m).find? (fun q => q.1 == p) =
        m.find? (fun q => q.1 == p) := by
  induction l with
  | nil => intro m; rfl
  | cons c t ih =>
    intro m
    rw [List.foldl_cons]
    rw [ih (fun x hx => hl x (List.mem_cons_of_mem c hx))]
    exact setField_find?_ne m c (val c) p (hl c (List.mem_cons_self c t))

/-- When the identity property name collides with no configured callout
label or property name, the built field mapping carries the guid value under
the identity property name. -/
theorem buildAnkiFields_guid (ef : String → String → Option String)
    (s : AnkiSyncSettings) (f : NoteFile) (g : JsValue)
    (hc : s.obsidianGuidProperty ∉ s.callouts)
    (hp : s.obsidianGuidProperty ∉ s.propertyNames) :
    (buildAnkiFields ef s f g).find? (fun q => q.1 == s.obsidianGuidProperty) =
      some (s.obsidianGuidProperty, g.toStringJs) := by
  unfold buildAnkiFields
  rw [foldl_setField_ne (fun p => projectProperty f.frontmatter p) s.propertyNames
    s.obsidianGuidProperty (fun c hcm hEq => hp (hEq ▸ hcm))]
  rw [foldl_setField_ne (fun c => (ef f.content c).getD "") s.callouts
    s.obsidianGuidProperty (fun c hcm hEq => hc (hEq ▸ hcm))]
  simp [setField]

/-- After adding a note whose field mapping carries `gs` under `prop`, the
identity query that previously found nothing finds exactly the new note. -/
theorem runFindNotes_addNote (st : AnkiState) (deck model prop gs : String)
    (fields : List (String × String)) (tags : JsValue)
    (hmatch : fields.find? (fun q => q.1 == prop) = some (prop, gs))
    (hnone : runFindNotes st deck prop gs = []) :
    runFindNotes (runAddNote st deck model fields tags) deck prop gs = [st.nextId] := by
  unfold runFindNotes at hnone ⊢
  unfold runAddNote
  have hfil : st.notes.filter (fun n =>
      n.deckName == deck &&
      ((n.fields.find? (fun p => p.1 == prop)).map (fun p => p.2) == some gs)) = [] := by
    exact List.map_eq_nil_iff.mp hnone
  rw [List.filter_append, hfil]
  simp [hmatch]

/-- Unfolding rule for syncNoteToAnki on a note with a truthy identity value
and a successful transport. -/
theorem syncOne_unfold (ef : String → String → Option String) (s : AnkiSyncSettings)
    (f : NoteFile) (g : JsValue) (st : AnkiState)
    (hg : lookupFm f.frontmatter s.obsidianGuidProperty = some g)
    (ht : g.truthy = true) :
    syncNoteToAnki ef s f st true =
      (match runFindNotes st s.ankiDeckName s.obsidianGuidProperty g.toStringJs with
      | noteId :: _ =>
        ⟨.updated, runUpdateNoteFields st noteId (buildAnkiFields ef s f g),
         [.findNotes (findNotesQuery s.ankiDeckName s.obsidianGuidProperty g.toStringJs),
          .updateNoteFields noteId (buildAnkiFields ef s f g)]⟩
      | [] =>
        ⟨.created,
         runAddNote st s.ankiDeckName s.noteTypeName (buildAnkiFields ef s f g)
           (rawTags f.frontmatter),
         [.findNotes (findNotesQuery s.ankiDeckName s.obsidianGuidProperty g.toStringJs),
          .addNote s.ankiDeckName s.noteTypeName (buildAnkiFields ef s f g)
            (rawTags f.frontmatter)]⟩) := by
  simp only [syncNoteToAnki, hg, ht]
  rfl

/-- Claim C1: for a note with a (truthy) identity value whose name collides
with no other configured field, syncNoteToAnki always issues the identity
query first; when the query finds at least one record it takes the first and
issues an update request with the full field mapping, reporting updated;
when it finds none it issues a create request with the projected fields and
the raw frontmatter tag list, reporting created; and consequently, starting
from a store with no matching record, a first sync reports created and a
second sync of the same note reports updated, issuing an update request (for
the record the first sync created) and no create request. -/
theorem syncOne_create_then_update
    (ef : String → String → Option String) (s : AnkiSyncSettings) (f : NoteFile) (g : JsValue)
    (hg : lookupFm f.frontmatter s.obsidianGuidProperty = some g)
    (ht : g.truthy = true)
    (hc : s.obsidianGuidProperty ∉ s.callouts)
    (hp : s.obsidianGuidProperty ∉ s.propertyNames) :
    (∀ st : AnkiState,
      (syncNoteToAnki ef s f st true).calls.head? =
        some (.findNotes (findNotesQuery s.ankiDeckName s.obsidianGuidProperty g.toStringJs))) ∧
    (∀ (st : AnkiState) (noteId : Nat) (rest : List Nat),
      runFindNotes st s.ankiDeckName s.obsidianGuidProperty g.toStringJs = noteId :: rest →
      syncNoteToAnki ef s f st true =
        ⟨.updated, runUpdateNoteFields st noteId (buildAnkiFields ef s f g),
         [.findNotes (findNotesQuery s.ankiDeckName s.obsidianGuidProperty g.toStringJs),
          .updateNoteFields noteId (buildAnkiFields ef s f g)]⟩) ∧
    (∀ st : AnkiState,
      runFindNotes st s.ankiDeckName s.obsidianGuidProperty g.toStringJs = [] →
      syncNoteToAnki ef s f st true =
        ⟨.created,
         runAddNote st s.ankiDeckName s.noteTypeName (buildAnkiFields ef s f g)
           (rawTags f.frontmatter),
         [.findNotes (findNotesQuery s.ankiDeckName s.obsidianGuidProperty g.toStringJs),
          .addNote s.ankiDeckName s.noteTypeName (buildAnkiFields ef s f g)
            (rawTags f.frontmatter)]⟩) ∧
    (∀ st : AnkiState,
      runFindNotes st s.ankiDeckName s.obsidianGuidProperty g.toStringJs = [] →
      (syncNoteToAnki ef s f st true).outcome = .created ∧
      (syncNoteToAnki ef s f (syncNoteToAnki ef s f st true).state true).outcome = .updated ∧
      (syncNoteToAnki ef s f (syncNoteToAnki ef s f st true).state true).calls =
        [.findNotes (findNotesQuery s.ankiDeckName s.obsidianGuidProperty g.toStringJs),
         .updateNoteFields st.nextId (buildAnkiFields ef s f g)]) := by
  have hupd : ∀ (st : AnkiState) (noteId : Nat) (rest : List Nat),
      runFindNotes st s.ankiDeckName s.obsidianGuidProperty g.toStringJs = noteId :: rest →
      syncNoteToAnki ef s f st true =
        ⟨.updated, runUpdateNoteFields st noteId (buildAnkiFields ef s f g),
         [.findNotes (findNotesQuery s.ankiDeckName s.obsidianGuidProperty g.toStringJs),
          .updateNoteFields noteId (buildAnkiFields ef s f g)]⟩ := by
    intro st noteId rest hfound
    rw [syncOne_unfold ef s f g st hg ht, hfound]
  have hcre : ∀ st : AnkiState,
      runFindNotes st s.ankiDeckName s.obsidianGuidProperty g.toStringJs = [] →
      syncNoteToAnki ef s f st true =
        ⟨.created,
         runAddNote st s.ankiDeckName s.noteTypeName (buildAnkiFields ef s f g)
           (rawTags f.frontmatter),
         [.findNotes (findNotesQuery s.ankiDeckName s.obsidianGuidProperty g.toStringJs),
          .addNote s.ankiDeckName s.noteTypeName (buildAnkiFields ef s f g)
            (rawTags f.frontmatter)]⟩ := by
    intro st hnone
    rw [syncOne_unfold ef s f g st hg ht, hnone]
  refine ⟨?_, hupd, hcre, ?_⟩
  · intro st
    rw [syncOne_unfold ef s f g st hg ht]
    cases runFindNotes st s.ankiDeckName s.obsidianGuidProperty g.toStringJs <;> rfl
  · intro st hnone
    have h1 := hcre st hnone
    have hfound : runFindNotes (syncNoteToAnki ef s f st true).state s.ankiDeckName
        s.obsidianGuidProperty g.toStringJs = [st.nextId] := by
      rw [h1]
      exact runFindNotes_addNote st s.ankiDeckName s.noteTypeName s.obsidianGuidProperty
        g.toStringJs (buildAnkiFields ef s f g) (rawTags f.frontmatter)
        (buildAnkiFields_guid ef s f g hc hp) hnone
    have h2 := hupd (syncNoteToAnki ef s f st true).state st.nextId [] hfound
    rw [h1]
    rw [h1] at h2
    rw [h2]
    exact ⟨rfl, rfl, rfl⟩

/-- Witness for claim C1 at a concrete note, configuration and empty store:
the first sync creates (issuing findNotes then addNote), the second sync
updates the created record (issuing findNotes then updateNoteFields for
record id 0). -/
theorem syncOne_create_then_update_witness :
    (syncNoteToAnki (fun _ _ => none) c1cfg c1note ⟨[], 0, []⟩ true).outcome = .created ∧
    (syncNoteToAnki (fun _ _ => none) c1cfg c1note
        (syncNoteToAnki (fun _ _ => none) c1cfg c1note ⟨[], 0, []⟩ true).state true).outcome =
      .updated ∧
    (syncNoteToAnki (fun _ _ => none) c1cfg c1note
        (syncNoteToAnki (fun _ _ => none) c1cfg c1note ⟨[], 0, []⟩ true).state true).calls =
      [.findNotes (findNotesQuery c1cfg.ankiDeckName c1cfg.obsidianGuidProperty "abc123"),
       .updateNoteFields 0 (buildAnkiFields (fun _ _ => none) c1cfg c1note (.str "abc123"))] :=
  (syncOne_create_then_update (fun _ _ => none) c1cfg c1note (.str "abc123")
    (by decide) (by decide) (by decide) (by decide)).2.2.2 ⟨[], 0, []⟩ (by decide)

/-! ## Matching lemmas for the callout extractor -/

theorem matchCI_self : ∀ ps cs : List Char, matchCI ps (ps ++ cs) = some cs
  | [], _ => rfl
  | p :: ps, cs => by
    rw [List.cons_append]
    simp only [matchCI, if_pos rfl]
    exact matchCI_self ps cs

theorem spanNL_append (l : List Char) (c : Char) (r : List Char)
    (hl : l.all (fun x => !isNL x) = true) (hc : isNL c = true) :
    spanNL (l ++ c :: r) = (l, c :: r) := by
  induction l with
  | nil => simp [spanNL, hc]
  | cons a t ih =>
    simp only [List.all_cons, Bool.and_eq_true] at hl
    have ha : isNL a = false := by simpa using hl.1
    rw [List.cons_append]
    simp [spanNL, ha, ih hl.2]

theorem matchOpener_self (L B : List Char) :
    matchOpener L ('>' :: ' ' :: '[' :: '!' :: (L ++ (']' :: '\n' :: B))) = some B := by
  unfold matchOpener
  have h1 : matchCI ('>' :: ' ' :: '[' :: '!' :: L)
      ('>' :: ' ' :: '[' :: '!' :: (L ++ (']' :: '\n' :: B))) = some (']' :: '\n' :: B) :=
    matchCI_self ('>' :: ' ' :: '[' :: '!' :: L) (']' :: '\n' :: B)
  rw [h1]
  simp [expectChar, spanNL, optChar, isNL]

theorem quotedStep_quoted (l r : List Char) (hl : l.all (fun c => !isNL c) = true) :
    quotedStep ('>' :: (l ++ '\n' :: r)) = some ('>' :: (l ++ ['\n']), r) := by
  simp only [quotedStep, if_pos rfl]
  rw [spanNL_append l '\n' r hl (by decide)]
  rw [show optChar '\r' ('\n' :: r) = ([], '\n' :: r) from by simp [optChar]]
  rw [show optChar '\n' ('\n' :: r) = (['\n'], r) from by simp [optChar]]
  simp

theorem captureQuoted_quoted (l r : List Char) (hl : l.all (fun c => !isNL c) = true) :
    captureQuoted ('>' :: (l ++ '\n' :: r)) = ('>' :: (l ++ ['\n'])) ++ captureQuoted r := by
  rw [captureQuoted_step, quotedStep_quoted l r hl]

theorem captureQuoted_of_none (cs : List Char) (h : quotedStep cs = none) :
    captureQuoted cs = [] := by
  rw [captureQuoted_step, h]

theorem quotedStep_not_quote (cs : List Char)
    (h : cs.headD ' ' ≠ '>') : quotedStep cs = none := by
  cases cs with
  | nil => rfl
  | cons c rest => simp only [List.headD_cons] at h; simp [quotedStep, h]

theorem scanForCallout_start (L cs r : List Char) (h : matchOpener L cs = some r) :
    scanForCallout L cs true = some (captureQuoted r) := by
  cases cs with
  | nil => simp [scanForCallout, h]
  | cons c rest => simp [scanForCallout, h]

theorem splitCRLF_append (l r : List Char) (hl : l.all (fun c => !isNL c) = true) :
    splitCRLF (l ++ '\n' :: r) = l :: splitCRLF r := by
  induction l with
  | nil =>
    rw [splitCRLF.eq_def]
    simp
  | cons a t ih =>
    simp only [List.all_cons, Bool.and_eq_true] at hl
    have ha : isNL a = false := by simpa using hl.1
    have han : ¬(a = '\n') := fun h' => by simp [isNL, h'] at ha
    have har : ¬(a = '\r') := fun h' => by simp [isNL, h'] at ha
    rw [List.cons_append, splitCRLF.eq_def]
    simp only [han, har, if_false, ite_false]
    rw [ih hl.2]
    rfl

theorem stripQuote_quoted (l : List Char) : stripQuote ('>' :: ' ' :: l) = l := by
  rw [stripQuote.eq_def]
  simp [jsWhitespace]

theorem joinNL_three (x y : List Char) : joinNL [x, y, []] = x ++ '\n' :: (y ++ ['\n']) := by
  simp [joinNL, List.intercalate, List.intersperse]

theorem trimJs_wrap (c : Char) (t t2 : List Char) (e : Char)
    (hc : jsWhitespace c = false) (he : jsWhitespace e = false) :
    trimJs ((c :: t) ++ '\n' :: ((t2 ++ [e]) ++ ['\n'])) = (c :: t) ++ '\n' :: (t2 ++ [e]) := by
  unfold trimJs
  rw [List.cons_append, List.dropWhile_cons, if_neg (by simp [hc])]
  have hrev : (c :: (t ++ '\n' :: ((t2 ++ [e]) ++ ['\n']))).reverse =
      '\n' :: e :: (t2.reverse ++ ('\n' :: (t.reverse ++ [c]))) := by
    simp
  rw [hrev, List.dropWhile_cons, if_pos (by decide), List.dropWhile_cons, if_neg (by simp [he])]
  simp

theorem splitCRLF_nil : splitCRLF [] = [[]] := by
  rw [splitCRLF.eq_def]

theorem stripQuote_nil : stripQuote [] = [] := by
  rw [stripQuote.eq_def]

/-! ## Claim C8: extraction of a well-formed two-line callout -/

/-- Claim C8: for every literal label L and continuation lines line1, line2
(no line terminators inside, non-empty, not starting resp. ending in
whitespace — so that the final trim only removes the trailing line break),
extracting L from the well-formed callout text
`> [!L]\n> line1\n> line2\n` returns the string `line1\nline2`: the two
continuation lines with their one block-quote marker and one following space
stripped, joined with a single newline, trimmed. -/
theorem extract_wellformed_callout (L l1 l2 : String)
    (hL : labelOk L = true)
    (h1 : l1.toList.all (fun c => !isNL c) = true)
    (h2 : l2.toList.all (fun c => !isNL c) = true)
    (hne1 : l1.toList ≠ []) (hw1 : jsWhitespace (l1.toList.headD ' ') = false)
    (hne2 : l2.toList ≠ []) (hw2 : jsWhitespace (l2.toList.getLastD ' ') = false) :
    extractSummaryCallout ("> [!" ++ L ++ "]\n> " ++ l1 ++ "\n> " ++ l2 ++ "\n") L =
      .value (l1 ++ "\n" ++ l2) := by
  have hok := labelOk_patternOk L hL
  obtain ⟨c1, t1, hl1⟩ : ∃ c t, l1.toList = c :: t := by
    cases hx : l1.toList with
    | nil => exact absurd hx hne1
    | cons a b => exact ⟨a, b, rfl⟩
  obtain ⟨t2, e2, hl2⟩ : ∃ t e, l2.toList = t ++ [e] := by
    rcases List.eq_nil_or_concat l2.toList with hx | ⟨t, e, hx⟩
    · exact absurd hx hne2
    · exact ⟨t, e, by simpa [List.concat_eq_append] using hx⟩
  have hw1' : jsWhitespace c1 = false := by
    rw [hl1] at hw1
    simpa using hw1
  have hw2' : jsWhitespace e2 = false := by
    rw [hl2] at hw2
    simpa using hw2
  have hA : ("> [!" ++ L ++ "]\n> " ++ l1 ++ "\n> " ++ l2 ++ "\n").toList =
      '>' :: ' ' :: '[' :: '!' :: (L.toList ++ (']' :: '\n' ::
        ('>' :: ((' ' :: l1.toList) ++ '\n' ::
          ('>' :: ((' ' :: l2.toList) ++ '\n' :: [])))))) := by
    show ("> [!" ++ L ++ "]\n> " ++ l1 ++ "\n> " ++ l2 ++ "\n").data = _
    rw [String.data_append, String.data_append, String.data_append, String.data_append,
        String.data_append, String.data_append]
    rw [show ("> [!" : String).data = ['>', ' ', '[', '!'] from rfl,
        show ("]\n> " : String).data = [']', '\n', '>', ' '] from rfl,
        show ("\n> " : String).data = ['\n', '>', ' '] from rfl,
        show ("\n" : String).data = ['\n'] from rfl]
    simp [String.toList]
  simp only [extractSummaryCallout]
  rw [if_pos hok, hA,
      scanForCallout_start L.toList _ _ (matchOpener_self L.toList _)]
  have hall1 : (' ' :: l1.toList).all (fun c => !isNL c) = true := by
    simp only [List.all_cons, Bool.and_eq_true]
    exact ⟨by decide, h1⟩
  have hall2 : (' ' :: l2.toList).all (fun c => !isNL c) = true := by
    simp only [List.all_cons, Bool.and_eq_true]
    exact ⟨by decide, h2⟩
  rw [captureQuoted_quoted (' ' :: l1.toList) _ hall1,
      captureQuoted_quoted (' ' :: l2.toList) _ hall2,
      captureQuoted_of_none [] rfl]
  dsimp only
  rw [if_neg (by simp)]
  simp only [processCapture]
  have hshape : ('>' :: ((' ' :: l1.toList) ++ ['\n'])) ++
      (('>' :: ((' ' :: l2.toList) ++ ['\n'])) ++ []) =
      ('>' :: ' ' :: l1.toList) ++ '\n' :: (('>' :: ' ' :: l2.toList) ++ '\n' :: []) := by
    simp
  rw [hshape]
  have hallq1 : ('>' :: ' ' :: l1.toList).all (fun c => !isNL c) = true := by
    simp only [List.all_cons, Bool.and_eq_true]
    exact ⟨by decide, by decide, h1⟩
  have hallq2 : ('>' :: ' ' :: l2.toList).all (fun c => !isNL c) = true := by
    simp only [List.all_cons, Bool.and_eq_true]
    exact ⟨by decide, by decide, h2⟩
  rw [splitCRLF_append _ _ hallq1, splitCRLF_append _ _ hallq2, splitCRLF_nil]
  simp only [List.map_cons, List.map_nil]
  rw [stripQuote_quoted, stripQuote_quoted, stripQuote_nil, joinNL_three]
  rw [hl1, hl2]
  rw [trimJs_wrap c1 t1 t2 e2 hw1' hw2']
  rw [← hl1, ← hl2]
  refine congrArg ExtractResult.value (String.ext ?_)
  show l1.toList ++ '\n' :: l2.toList = (l1 ++ "\n" ++ l2).data
  rw [String.data_append, String.data_append, show ("\n" : String).data = ['\n'] from rfl]
  simp [String.toList]

/-- Witness for claim C8 at the concrete callout of the specification. -/
theorem extract_wellformed_callout_witness :
    extractSummaryCallout "> [!summary]\n> line1\n> line2\n" "summary" =
      .value "line1\nline2" := by
  have h := extract_wellformed_callout "summary" "line1" "line2" (by decide) (by decide)
    (by decide) (by decide) (by decide) (by decide) (by decide)
  have heq : ("> [!" ++ "summary" ++ "]\n> " ++ "line1" ++ "\n> " ++ "line2" ++ "\n" : String) =
      "> [!summary]\n> line1\n> line2\n" := by decide
  have heq2 : ("line1" ++ "\n" ++ "line2" : String) = "line1\nline2" := by decide
  rw [heq, heq2] at h
  exact h

/-! ## Claim C9: a callout opener with zero continuation lines -/

/-- Counterexample to claim C9: on text containing an opener for the label
followed by zero block-quoted continuation lines, the extractor returns
absent (null), not the empty string: the capture group matches the empty
string, which is falsy, so the `if (match && match[1])` guard falls through
to `return null`. -/
theorem extract_zero_continuation_counterexample :
    extractSummaryCallout "> [!summary]\nnext line\n" "summary" = .absent ∧
    ExtractResult.absent ≠ .value "" := ⟨by decide, by decide⟩

/-- Claim C9 as amended: an opener for the label followed by zero
block-quoted continuation lines yields absent, exactly as when no opener
exists; the empty string is returned only when continuation lines exist but
strip and trim to nothing, for instance a single `>` line. -/
theorem extract_zero_continuation_amended :
    (∀ L rest : String, labelOk L = true → rest.toList.headD ' ' ≠ '>' →
      extractSummaryCallout ("> [!" ++ L ++ "]\n" ++ rest) L = .absent) ∧
    extractSummaryCallout "> [!summary]\n>\n" "summary" = .value "" := by
  constructor
  · intro L rest hL hrest
    have hok := labelOk_patternOk L hL
    have hA : ("> [!" ++ L ++ "]\n" ++ rest).toList =
        '>' :: ' ' :: '[' :: '!' :: (L.toList ++ (']' :: '\n' :: rest.toList)) := by
      show ("> [!" ++ L ++ "]\n" ++ rest).data = _
      rw [String.data_append, String.data_append, String.data_append]
      rw [show ("> [!" : String).data = ['>', ' ', '[', '!'] from rfl,
          show ("]\n" : String).data = [']', '\n'] from rfl]
      simp [String.toList]
    simp only [extractSummaryCallout]
    rw [if_pos hok, hA, scanForCallout_start L.toList _ _ (matchOpener_self L.toList _)]
    rw [captureQuoted_of_none rest.toList (quotedStep_not_quote rest.toList hrest)]
    dsimp only
    rw [if_pos (show List.isEmpty [] = true from rfl)]
  · decide

/-- Witness for the amended claim C9 at a concrete opener with no
continuation line. -/
theorem extract_zero_continuation_amended_witness :
    extractSummaryCallout "> [!summary]\nplain text\n" "summary" = .absent := by
  have h := extract_zero_continuation_amended.1 "summary" "plain text\n" (by decide) (by decide)
  have heq : ("> [!" ++ "summary" ++ "]\n" ++ "plain text\n" : String) =
      "> [!summary]\nplain text\n" := by decide
  rw [heq] at h
  exact h

end NotesToAnki
